import Mathlib

/-!
Shallow embedding of the request-mediation core of the HIPAA healthcare repository:
the PHI cipher utilities, audit-log sanitization, the middleware pipeline of
the patient service, and the read paths of the medical-record and appointment
services.  Each definition is translated from the TypeScript source file noted
in its doc comment; theorems at the end settle the specification claims.
-/

namespace Hipaa

/-! ## PHI Cipher (src/unnamed/part_004, class EncryptionService)

Bytes are modelled as `Nat` (values < 256), strings handed to `crypto` as
byte lists, and JavaScript strings holding packed ciphertext as `List Char`.
The AES-256-GCM core provided by node `crypto` is external to the repository;
it is modelled as an ideal stream cipher (per-index keystream XORed onto the
data) together with an ideal authentication tag that is injective in the
ciphertext for a fixed key and IV, which is the guarantee the source relies
on (`decipher.final` throws on any tag mismatch). -/

/-- Ideal keystream byte for position `i` derived from `key` and `iv`
(model of the external AES-256-GCM cipher stream; always < 256). -/
def ksByte (key iv : List Nat) (i : Nat) : Nat :=
  (key.foldl (fun a b => a * 131 + b) 7 +
   iv.foldl (fun a b => a * 131 + b) 13 * (i + 1)) % 256

/-- First `n` keystream bytes. -/
def gcmKeystream (key iv : List Nat) (n : Nat) : List Nat :=
  (List.range n).map (ksByte key iv)

/-- GCM encryption/decryption core: XOR the data with the keystream.
The same function inverts itself, as in counter-mode AES. -/
def gcmXor (key iv data : List Nat) : List Nat :=
  List.zipWith (fun a b => a ^^^ b) data (gcmKeystream key iv data.length)

/-- Ideal authentication tag over (key, iv, ciphertext): modelled as a value
that determines the ciphertext for a fixed key and IV, reflecting that GCM
tag verification rejects any modified ciphertext or tag. -/
def gcmAuthTag (key iv ct : List Nat) : List Nat :=
  key ++ iv ++ ct

/-- Lower-case hex digit for `n < 16`, as printed by node buffers in hex mode. -/
def hexDigitChar (n : Nat) : Char :=
  if n < 10 then Char.ofNat (48 + n) else Char.ofNat (87 + n)

/-- Two hex characters of one byte. -/
def byteHexChars (b : Nat) : List Char :=
  [hexDigitChar (b / 16 % 16), hexDigitChar (b % 16)]

/-- Hex encoding of a byte list (a node buffer printed in hex mode). -/
def bytesToHex (bs : List Nat) : List Char :=
  (bs.map byteHexChars).flatten

/-- Value of one hex character (node hex decoding accepts both letter cases). -/
def hexDigitVal (c : Char) : Option Nat :=
  if 48 ≤ c.toNat ∧ c.toNat ≤ 57 then some (c.toNat - 48)
  else if 97 ≤ c.toNat ∧ c.toNat ≤ 102 then some (c.toNat - 87)
  else if 65 ≤ c.toNat ∧ c.toNat ≤ 70 then some (c.toNat - 55)
  else none

/-- Node buffer hex decoding, as used for the iv and authTag segments and by
the hex input encoding of `decipher.update`: two hex digits per byte,
TRUNCATING at the first invalid or incomplete pair instead of failing (a lone
trailing digit or an invalid character simply ends the decoded buffer). -/
def bufferFromHex : List Char → List Nat
  | c1 :: c2 :: rest =>
    match hexDigitVal c1, hexDigitVal c2 with
    | some h, some l => (16 * h + l) :: bufferFromHex rest
    | _, _ => []
  | _ => []

/-- `String.prototype.split(sep)` on a character list. -/
def splitOnChar (sep : Char) : List Char → List (List Char)
  | [] => [[]]
  | c :: rest =>
    if c = sep then [] :: splitOnChar sep rest
    else
      match splitOnChar sep rest with
      | [] => [[c]]
      | g :: gs => (c :: g) :: gs

/-- `EncryptionService.encryptPHI` (src/unnamed/part_004 lines 254-264):
AES-256-GCM with a fresh IV, returning `iv:authTag:ciphertext` in hex.
The randomly sampled IV is an explicit argument. -/
def encryptPHI (data key iv : List Nat) : List Char :=
  bytesToHex iv ++
    (':' :: (bytesToHex (gcmAuthTag key iv (gcmXor key iv data)) ++
      (':' :: bytesToHex (gcmXor key iv data))))

/-- `EncryptionService.decryptPHI` (src/unnamed/part_004 lines 266-279):
destructures `encryptedData.split(':')` into the first three components
(JavaScript destructuring ignores any further components), decodes each with
node hex truncation semantics (`bufferFromHex`), and decrypts with tag
verification; a tag mismatch throws from `decipher.final`, modelled as
`none`.  (`createDecipheriv` additionally rejects an empty IV; genuine
`encryptPHI` output always carries the sampled sixteen-byte IV, and the model
leaves the IV length abstract, as it does the tag length checked by
`setAuthTag` — both checks are subsumed here by the ideal tag equality.) -/
def decryptPHI (encryptedData : List Char) (key : List Nat) : Option (List Nat) :=
  match splitOnChar ':' encryptedData with
  | ivHex :: authTagHex :: encrypted :: _ =>
    if gcmAuthTag key (bufferFromHex ivHex) (bufferFromHex encrypted) =
        bufferFromHex authTagHex then
      some (gcmXor key (bufferFromHex ivHex) (bufferFromHex encrypted))
    else none
  | _ => none

/-- The constant result `maskSensitiveData` returns for short inputs. -/
def fullMask : String := "****"

/-- `EncryptionService.maskSensitiveData` (src/unnamed/part_004 lines 285-295):
returns the full mask for empty or short input, otherwise the first and last
`visibleChars` characters around `max (length - 2*visibleChars) 4` asterisks. -/
def maskSensitiveData (data : List Char) (visibleChars : Nat) : List Char :=
  if data.length ≤ visibleChars * 2 then fullMask.data
  else
    data.take visibleChars ++
    List.replicate (max (data.length - visibleChars * 2) 4) '*' ++
    data.drop (data.length - visibleChars)

/-! ## Audit snapshot redaction (src/packages/shared/src/middleware/auditLog.ts)

`sanitizeBody` receives the result of `JSON.parse`, so its input is a JSON
value; `JSON.parse(JSON.stringify(body))` is the identity on such values. -/

/-- The fixed replacement marker written over denylisted values. -/
def redactedMarker : String := "***REDACTED***"

/-- JSON values as produced by `JSON.parse`. -/
inductive Json where
  | jnull
  | jstr (s : String)
  | jnum (n : Int)
  | jbool (b : Bool)
  | jarr (items : List Json)
  | jobj (fields : List (String × Json))

/-- JavaScript truthiness of a JSON value (`if (sanitized[field])`). -/
def jsTruthy : Json → Bool
  | .jnull => false
  | .jstr s => !(s = "")
  | .jnum n => !(n = 0)
  | .jbool b => b
  | .jarr _ => true
  | .jobj _ => true

/-- The denylist hard-coded in `sanitizeBody` (auditLog.ts lines 18-27).
Note it has eight names: `authorization` is absent. -/
def sensitiveFieldsAudit : List String :=
  ["password", "token", "refreshToken", "ssn", "creditCard", "bankAccount",
   "secret", "apiKey"]

/-- Overwrite the value of an existing top-level field (the assignment
`sanitized[field] = marker`). -/
def objSetAll (fields : List (String × Json)) (k : String) (v : Json) :
    List (String × Json) :=
  fields.map (fun kv => if kv.1 = k then (kv.1, v) else kv)

/-- Truthiness of `sanitized[field]`, where a missing field reads as
`undefined` (falsy). -/
def jsTruthyOpt : Option Json → Bool
  | none => false
  | some v => jsTruthy v

/-- One iteration of the `for (const field of sensitiveFields)` loop of
`sanitizeBody` (`if (sanitized[field]) sanitized[field] = marker`):
redact the top-level field when present and truthy. -/
def sanitizeBodyStep (fields : List (String × Json)) (name : String) :
    List (String × Json) :=
  if jsTruthyOpt (fields.lookup name) then
    objSetAll fields name (.jstr redactedMarker)
  else fields

/-- `sanitizeBody` (auditLog.ts lines 15-38): deep-copies the body, then
overwrites the eight denylisted fields at the TOP level only, only when the
present value is truthy, matching the key case-sensitively.  Arrays and
non-objects pass through (indexing them with a field name yields
`undefined`). -/
def sanitizeBody : Json → Json
  | .jobj fields => .jobj (sensitiveFieldsAudit.foldl sanitizeBodyStep fields)
  | body => body

/-- Top-level field access on a JSON value (used to exhibit that a persisted
snapshot still carries an original sensitive value at a nested key). -/
def jsonGet : Json → String → Option Json
  | .jobj fields, k => fields.lookup k
  | _, _ => none

/-! ## `sanitizeSensitiveData` under a heap model
(src/packages/shared/src/utils/middleware.ts lines 10-37)

The frame claim (the function never mutates its argument) is about object
identity, so JavaScript objects are modelled with an explicit heap: a value is
either a primitive or a reference into a heap of array/object nodes.
`[...data]` / `{...data}` allocate a fresh node; `sanitized[key] = v` writes
to the fresh node only.  The recursion is fuelled; the JavaScript function
recurses without bound (a cyclic input overflows the stack), and every stated
property holds for every fuel value. -/

/-- JavaScript values: primitives or references to heap nodes. -/
inductive JVal where
  | vnull
  | vundef
  | vstr (s : String)
  | vnum (n : Int)
  | vbool (b : Bool)
  | vref (a : Nat)
deriving DecidableEq

/-- Heap nodes: arrays and objects. -/
inductive JNode where
  | arrN (elems : List JVal)
  | objN (fields : List (String × JVal))
deriving DecidableEq

/-- The heap: node at address `a` is entry `a` of the list; allocation
appends. -/
abbrev JHeap := List JNode

/-- JavaScript falsiness (`if (!data) return data`). -/
def jsFalsy : JVal → Bool
  | .vnull => true
  | .vundef => true
  | .vstr s => s = ""
  | .vnum n => n = 0
  | .vbool b => !b
  | .vref _ => false

/-- The check `typeof x === object` (true for object/array references and
the null value). -/
def isObjTypeof : JVal → Bool
  | .vref _ => true
  | .vnull => true
  | _ => false

/-- ASCII lower-casing of a character (`String.prototype.toLowerCase`). -/
def lowerChar (c : Char) : Char :=
  if c.toNat ≥ 65 ∧ c.toNat ≤ 90 then Char.ofNat (c.toNat + 32) else c

/-- ASCII lower-casing of a string. -/
def lowerStr (s : String) : String := String.mk (s.data.map lowerChar)

/-- The denylist hard-coded in `sanitizeSensitiveData` (middleware.ts lines
13-20): six names; note `creditCard` contains an upper-case letter while
the key is compared after `toLowerCase()`, so that entry can never match. -/
def sensitiveFieldsMw : List String :=
  ["password", "ssn", "creditCard", "token", "secret", "authorization"]

/-- `sensitiveFields.includes(key.toLowerCase())`. -/
def isSensitiveMw (key : String) : Bool :=
  sensitiveFieldsMw.contains (lowerStr key)

/-- Overwrite field `k` of the object node at address `a`. -/
def heapSetObjField (h : JHeap) (a : Nat) (k : String) (v : JVal) : JHeap :=
  match h[a]? with
  | some (.objN fs) =>
    h.set a (.objN (fs.map (fun kv => if kv.1 = k then (kv.1, v) else kv)))
  | _ => h

/-- Overwrite element `i` of the array node at address `a`. -/
def heapSetArrIdx (h : JHeap) (a : Nat) (i : Nat) (v : JVal) : JHeap :=
  match h[a]? with
  | some (.arrN es) => h.set a (.arrN (es.set i v))
  | _ => h

/-- `sanitizeSensitiveData` (middleware.ts lines 10-37) over the heap model.
Falsy and non-object inputs are returned as they are; an object or array input
is shallow-copied into a fresh node, and the entries of the copy are then
rewritten in place: denylisted keys (after lower-casing) get the marker,
object-typed values are sanitized recursively and the result written into the
copy.  Returns the possibly-extended heap and the result value. -/
def sanitizeSensitiveData : Nat → JHeap → JVal → JHeap × JVal
  | 0, h, v => (h, v)
  | fuel + 1, h, v =>
    if jsFalsy v then (h, v)
    else
      match v with
      | .vref a =>
        match h[a]? with
        | some (.objN fields) =>
          let n := h.length
          let h1 := h ++ [JNode.objN fields]
          let h2 := fields.foldl (fun hAcc kv =>
            if isSensitiveMw kv.1 then
              heapSetObjField hAcc n kv.1 (.vstr redactedMarker)
            else if isObjTypeof kv.2 then
              let p := sanitizeSensitiveData fuel hAcc kv.2
              heapSetObjField p.1 n kv.1 p.2
            else hAcc) h1
          (h2, .vref n)
        | some (.arrN elems) =>
          let n := h.length
          let h1 := h ++ [JNode.arrN elems]
          let h2 := elems.enum.foldl (fun hAcc iv =>
            if isObjTypeof iv.2 then
              let p := sanitizeSensitiveData fuel hAcc iv.2
              heapSetArrIdx p.1 n iv.1 p.2
            else hAcc) h1
          (h2, .vref n)
        | none => (h, v)
      | _ => (h, v)

/-! ## Patient service pipeline
(src/packages/services/patient-service/src/lambda.ts,
 src/packages/shared/src/middleware/handler.ts and auditLog.ts,
 inner functions from src/unnamed/part_007)

The composed handler is
`withErrorHandler (withSecurityHeaders (withAuth (withAuditLog (validateRequest baseHandler))))`.
`withSecurityHeaders` only adds response headers and is modelled as
transparent.  `validateRequest(patientSchema)` is NOT transparent:
`patientSchema` (patient-service validation.ts lines 79-83) is a plain object
of three sub-schemas with no `validate` method, so `schema.validate(data, ...)`
raises a TypeError on every invocation, converted by the surrounding catch
into `ValidationError(Invalid request body)` before the inner handler can
run — `baseHandler` is unreachable through the exported composed handler.
The database is the list of patient rows, reduced to the two columns the
control flow reads. -/

/-- Message of the plain `Error` thrown by the inner patient functions. -/
def msgUnauthorizedInner : String := "Unauthorized"

/-- Message of the `ValidationError` for a missing id argument. -/
def msgPatientIdRequired : String := "Patient ID is required"

/-- Message of the `ValidationError` for a missing update input. -/
def msgUpdateInputRequired : String := "Update input is required"

/-- Message of the `UnauthorizedError` thrown by the `getPatient` case of
`baseHandler` (rendered without the apostrophe of the source text). -/
def msgNoAccessPatient : String :=
  "You do not have access to this patient information"

/-- Message of the `UnauthorizedError` thrown by the `updatePatient` case of
`baseHandler` (rendered without the apostrophe of the source text). -/
def msgNoPermissionUpdate : String :=
  "You do not have permission to update this patient information"

/-- Message of the `UnauthorizedError` thrown by `withAuth` for a missing
header. -/
def msgNoToken : String := "No authentication token provided"

/-- Message of the plain `Error` thrown by `authenticate` on a failing
verification. -/
def msgInvalidToken : String := "Invalid or expired token"

/-- Message of the `ValidationError` that `validateRequest` rethrows when the
schema call raises (as `patientSchema` always makes it do). -/
def msgInvalidRequestBody : String := "Invalid request body"

/-- Message of the `UnauthorizedError` for a logout call without an
identity (auth-service lambda.ts line 103). -/
def msgAuthRequiredLogout : String := "Authentication required for logout"

/-- Message standing for the `UnauthorizedError` the auth-service `logout`
function raises when the external sign-out fails (its text carries the
underlying error message). -/
def msgLogoutFailed : String := "Logout failed"

/-- The error classes thrown on these paths.  `plainE` is a plain
`new Error(...)`, which `withErrorHandler` maps to a generic 500 and does NOT
audit; `unauthorizedE`/`forbiddenE` are the `AppError` subclasses audited by
`withErrorHandler`. -/
inductive JsError where
  | unauthorizedE (msg : String)
  | forbiddenE (msg : String)
  | validationE (msg : String)
  | plainE (msg : String)
deriving DecidableEq

/-- Outcome of an inner handler: success or a thrown error. -/
inductive HRes where
  | ok
  | err (e : JsError)
deriving DecidableEq

/-- The actor context reaching `baseHandler` (`event.authContext`). -/
structure AuthCtx where
  userId : String
  role : String
deriving DecidableEq

/-- A patient row, reduced to the columns read by the control flow:
`id` and `user_id` (the owner). -/
structure PRow where
  id : String
  userId : String
deriving DecidableEq

/-- The two patient-service operations modelled (the ones the ownership
claims are about). -/
inductive PSField where
  | getPatientF
  | updatePatientF
deriving DecidableEq

/-- One inbound call: the bearer header (`none` = absent,
`some false` = present but failing verification, `some true` = verified),
the actor context, the operation, its `id` argument and whether an update
input is present. -/
structure PSCall where
  token : Option Bool
  auth : AuthCtx
  field : PSField
  argId : Option String
  hasInput : Bool
deriving DecidableEq

/-- `hasPatientAccess` (patient-service lambda.ts lines 81-87).  The
`GUARDIAN` branch reads `authContext.guardianFor`, a field `AuthContext`
does not carry, so `guardianFor?.includes(...)` is `undefined` and the
branch never grants access. -/
def hasPatientAccess (a : AuthCtx) (patientId : String) : Bool :=
  a.role = "ADMIN" || a.role = "DOCTOR" || a.role = "NURSE" ||
  (a.role = "PATIENT" && a.userId = patientId)

/-- Result of the inner patient functions: a thrown error, or the row the
query returned (`null` when no row matches). -/
inductive PatientRes where
  | okRow (row : Option PRow)
  | errP (e : JsError)
deriving DecidableEq

/-- `getPatient` (src/unnamed/part_007 lines 26-51): a `PATIENT` actor is
served their own row looked up by `user_id` (the `id` argument is ignored);
staff roles look up by `id`; any other role throws a plain
`Error(Unauthorized)`. -/
def getPatient (db : List PRow) (id : String) (a : AuthCtx) : PatientRes :=
  if a.role = "PATIENT" then .okRow (db.find? (fun r => r.userId = a.userId))
  else if a.role = "PROVIDER" || a.role = "ADMIN" || a.role = "NURSE" then
    .okRow (db.find? (fun r => r.id = id))
  else .errP (.plainE msgUnauthorizedInner)

/-- `updatePatient` (src/unnamed/part_007 lines 204-238): only
`PROVIDER`/`ADMIN`/`NURSE` pass the role gate; every other role — including
a `PATIENT` updating their own record — throws a plain
`Error(Unauthorized)`.  On success it updates and re-reads through
`getPatient` (the update changes no column the model keeps). -/
def updatePatient (db : List PRow) (id : String) (a : AuthCtx) : PatientRes :=
  if a.role = "PROVIDER" || a.role = "ADMIN" || a.role = "NURSE" then
    getPatient db id a
  else .errP (.plainE msgUnauthorizedInner)

/-- Collapse an inner patient result to the handler outcome. -/
def PatientRes.toHRes : PatientRes → HRes
  | .okRow _ => .ok
  | .errP e => .err e

/-- `baseHandler` (patient-service lambda.ts lines 77-154), restricted to the
`getPatient` and `updatePatient` operations. -/
def baseHandler (db : List PRow) (c : PSCall) : HRes :=
  match c.field with
  | .getPatientF =>
    match c.argId with
    | none => .err (.validationE msgPatientIdRequired)
    | some pid =>
      if hasPatientAccess c.auth pid then (getPatient db pid c.auth).toHRes
      else .err (.unauthorizedE msgNoAccessPatient)
  | .updatePatientF =>
    match c.argId with
    | none => .err (.validationE msgPatientIdRequired)
    | some pid =>
      if !c.hasInput then .err (.validationE msgUpdateInputRequired)
      else if hasPatientAccess c.auth pid then (updatePatient db pid c.auth).toHRes
      else .err (.unauthorizedE msgNoPermissionUpdate)

/-- Which middleware wrote an audit entry. -/
inductive AuditSource where
  | auditMiddleware
  | errorHandler
deriving DecidableEq

/-- One written audit entry, reduced to the fields the claims are about:
who wrote it, the `statusCode` recorded, and whether the entry carries an
`error` record. -/
structure AuditEnt where
  source : AuditSource
  statusCode : Nat
  recordsError : Bool
deriving DecidableEq

/-- `withAuditLog` (auditLog.ts lines 123-172): the `finally` block writes
exactly one entry per invocation; on an inner throw the entry records
`statusCode: 500` and the error, on success the response status (200 here). -/
def withAuditLog (inner : PSCall → HRes) (c : PSCall) :
    HRes × List AuditEnt :=
  match inner c with
  | .ok => (.ok, [⟨.auditMiddleware, 200, false⟩])
  | .err e => (.err e, [⟨.auditMiddleware, 500, true⟩])

/-- `withAuth` (patient-service lambda.ts lines 42-54): a missing header
throws `UnauthorizedError`; `authenticate` (shared auth.ts) throws a plain
`Error(Invalid or expired token)` on a failing verification. -/
def withAuth (inner : PSCall → HRes × List AuditEnt) (c : PSCall) :
    HRes × List AuditEnt :=
  match c.token with
  | none => (.err (.unauthorizedE msgNoToken), [])
  | some false => (.err (.plainE msgInvalidToken), [])
  | some true => inner c

/-- HTTP status of an error (`AppError.statusCode`; plain errors become the
generic 500). -/
def errStatus : JsError → Nat
  | .unauthorizedE _ => 401
  | .forbiddenE _ => 403
  | .validationE _ => 400
  | .plainE _ => 500

/-- Stable error code of the external response. -/
def errCode : JsError → String
  | .unauthorizedE _ => "UNAUTHORIZED"
  | .forbiddenE _ => "FORBIDDEN"
  | .validationE _ => "VALIDATION_ERROR"
  | .plainE _ => "INTERNAL_SERVER_ERROR"

/-- `error instanceof UnauthorizedError || error instanceof ForbiddenError`. -/
def isAuthError : JsError → Bool
  | .unauthorizedE _ => true
  | .forbiddenE _ => true
  | _ => false

/-- The external response: status code and stable error code. -/
structure Resp where
  status : Nat
  code : String
deriving DecidableEq

/-- `withErrorHandler` (handler.ts lines 86-141): catches every inner error;
401/403 `AppError`s additionally get their own `createAuditLog` entry
(with the real status code) before the sanitized response is returned. -/
def withErrorHandler (inner : PSCall → HRes × List AuditEnt) (c : PSCall) :
    Resp × List AuditEnt :=
  match inner c with
  | (.ok, evs) => (⟨200, "OK"⟩, evs)
  | (.err e, evs) =>
    let evs' := if isAuthError e then evs ++ [⟨.errorHandler, errStatus e, true⟩] else evs
    (⟨errStatus e, errCode e⟩, evs')

/-- `validateRequest(patientSchema)` (shared handler.ts lines 143-177,
composed at patient-service lambda.ts line 62): the try block runs
`schema.validate(data, ...)`, but `patientSchema` is a plain object with no
`validate` method, so a TypeError is raised on every call and the catch
rethrows it as `ValidationError(Invalid request body)`.  The inner handler
is never invoked. -/
def validateRequest (inner : PSCall → HRes) (c : PSCall) : HRes :=
  .err (.validationE msgInvalidRequestBody)

/-- The full composed patient-service handler
(patient-service lambda.ts lines 57-63 and 180). -/
def patientPipeline (db : List PRow) (c : PSCall) : Resp × List AuditEnt :=
  withErrorHandler (withAuth (withAuditLog (validateRequest (baseHandler db)))) c

/-! ## Medical-record and appointment read paths
(src/packages/services/medical-record-service/src/lambda.ts lines 71-124,
 src/unnamed/part_009 lines 154-193)

Both `getMedicalRecord` and `getAppointment` run a full-row `SELECT`
(`mr.*` / `a.*` with joins, including the protected columns), then throw
`not found`, then run the ownership check against the fetched row, then
(medical records only) decrypt the PHI content, then insert the audit rows.
The model produces the operation outcome together with the ordered trace of
these externally visible actions. -/

/-- Table names appearing in the queries and audit inserts. -/
def tblMedicalRecords : String := "medical_records"

/-- The appointments table. -/
def tblAppointments : String := "appointments"

/-- The per-record access-log table written by `logAccessEvent`. -/
def tblAccessLogs : String := "medical_record_access_logs"

/-- The audit-log table written by `logHipaaEvent`. -/
def tblAuditLogs : String := "audit_logs"

/-- Error message for a missing medical record (thrown before any
authorization check). -/
def msgRecordNotFound : String := "Medical record not found"

/-- Error message for a denied medical-record read. -/
def msgRecordAccessDenied : String := "Access denied to medical record"

/-- Error message for a missing appointment. -/
def msgApptNotFound : String := "Appointment not found"

/-- Error message for a denied appointment read. -/
def msgApptAccessDenied : String := "Access denied to appointment"

/-- Message standing for the database error a failed audit insert raises. -/
def msgAuditInsertFailed : String := "audit_logs insert failed"

/-- A medical-record row reduced to what the control flow reads: the id, the
joined owner (`p.user_id AS patient_user_id`) and whether `content_encrypted`
is non-null. -/
structure MRRow where
  id : String
  patientUserId : String
  hasEncryptedContent : Bool
deriving DecidableEq

/-- An appointment row reduced to the id and the joined owner. -/
structure ApptRow where
  id : String
  patientUserId : String
deriving DecidableEq

/-- The Cognito identity as read by the services (`identity.sub` and the
`custom:role` claim). -/
structure CogIdent where
  sub : String
  role : String
deriving DecidableEq

/-- The `logout` path of the auth-service handler (auth-service lambda.ts
lines 101-107 and 290-313): the exported handler is not wrapped in
`withErrorHandler` or `withAuditLog` and never calls `createAuditLog`, so
both the missing-identity `UnauthorizedError` and a failing external
sign-out (`logoutOk = false`) propagate with no audit entry written. -/
def authServiceLogout (identity : Option CogIdent) (logoutOk : Bool) :
    HRes × List AuditEnt :=
  match identity with
  | none => (.err (.unauthorizedE msgAuthRequiredLogout), [])
  | some _ =>
    if logoutOk then (.ok, [])
    else (.err (.unauthorizedE msgLogoutFailed), [])

/-- Externally visible actions of a read path, in execution order. -/
inductive AccessEv where
  | fetchFullRow (table : String) (rid : String)
  | authCheck (allowed : Bool)
  | decryptContent
  | insertRow (table : String) (ok : Bool)
deriving DecidableEq

/-- Operation outcome: success, or the message of the thrown error. -/
inductive MRes where
  | ok
  | err (msg : String)
deriving DecidableEq

/-- `getMedicalRecord` (medical-record-service lambda.ts lines 71-124).
`auditInsertFails` models the external audit store rejecting the
`db.insert(audit_logs, ...)` of `logHipaaEvent` (lines 448-464), whose
error is NOT caught and so aborts the operation. -/
def getMedicalRecord (db : List MRRow) (idn : CogIdent) (rid : String)
    (auditInsertFails : Bool) : MRes × List AccessEv :=
  let evs0 := [AccessEv.fetchFullRow tblMedicalRecords rid]
  match db.find? (fun r => r.id = rid) with
  | none => (.err msgRecordNotFound, evs0)
  | some r =>
    if idn.role = "PATIENT" && !(r.patientUserId = idn.sub) then
      (.err msgRecordAccessDenied, evs0 ++ [.authCheck false])
    else
      let evs1 := evs0 ++ [.authCheck true] ++
        (if r.hasEncryptedContent then [AccessEv.decryptContent] else [])
      let evs2 := evs1 ++ [.insertRow tblAccessLogs true]
      if auditInsertFails then
        (.err msgAuditInsertFailed, evs2 ++ [.insertRow tblAuditLogs false])
      else
        (.ok, evs2 ++ [.insertRow tblAuditLogs true])

/-- `getAppointment` (src/unnamed/part_009 lines 154-193): same shape as
`getMedicalRecord` but with no encrypted column and a single audit insert. -/
def getAppointment (db : List ApptRow) (idn : CogIdent) (rid : String)
    (auditInsertFails : Bool) : MRes × List AccessEv :=
  let evs0 := [AccessEv.fetchFullRow tblAppointments rid]
  match db.find? (fun r => r.id = rid) with
  | none => (.err msgApptNotFound, evs0)
  | some r =>
    if idn.role = "PATIENT" && !(r.patientUserId = idn.sub) then
      (.err msgApptAccessDenied, evs0 ++ [.authCheck false])
    else
      let evs1 := evs0 ++ [.authCheck true]
      if auditInsertFails then
        (.err msgAuditInsertFailed, evs1 ++ [.insertRow tblAuditLogs false])
      else
        (.ok, evs1 ++ [.insertRow tblAuditLogs true])

/-- `createAuditLog` (auditLog.ts lines 41-58): the put into the audit store
may fail (`storePutFails`), but the `catch` only logs locally; the function
always returns normally.  The second component records whether a failure was
logged. -/
def createAuditLog (storePutFails : Bool) : MRes × Bool :=
  (.ok, storePutFails)

/-- Is an event a full-row fetch? -/
def AccessEv.isFetch : AccessEv → Bool
  | .fetchFullRow _ _ => true
  | _ => false

/-- Is an event an authorization decision? -/
def AccessEv.isAuthCheck : AccessEv → Bool
  | .authCheck _ => true
  | _ => false

/-- The temporal property claimed by the spec: no data fetch occurs before
the first authorization decision of the trace. -/
def noFetchBeforeDecision (evs : List AccessEv) : Bool :=
  (evs.takeWhile (fun e => !e.isAuthCheck)).all (fun e => !e.isFetch)

/-- Fail-closed decryption order: scanning the trace, no `decryptContent`
occurs before an `authCheck true`. -/
def decryptsAfterAllow : List AccessEv → Bool
  | [] => true
  | .authCheck true :: _ => true
  | .decryptContent :: _ => false
  | _ :: rest => decryptsAfterAllow rest

/-! ## Helper lemmas and claim theorems -/

lemma hexDigitVal_hexDigitChar : ∀ n < 16, hexDigitVal (hexDigitChar n) = some n := by decide

lemma hexDigitChar_ne_colon : ∀ n < 16, hexDigitChar n ≠ ':' := by decide

lemma colon_not_mem_byteHexChars (b : Nat) : ':' ∉ byteHexChars b := by
  have h1 : b / 16 % 16 < 16 := Nat.mod_lt _ (by norm_num)
  have h2 : b % 16 < 16 := Nat.mod_lt _ (by norm_num)
  intro hmem
  simp only [byteHexChars, List.mem_cons, List.not_mem_nil, or_false] at hmem
  rcases hmem with h | h
  · exact hexDigitChar_ne_colon _ h1 h.symm
  · exact hexDigitChar_ne_colon _ h2 h.symm

lemma bytesToHex_nil : bytesToHex [] = [] := rfl

lemma bytesToHex_cons (b : Nat) (bs : List Nat) :
    bytesToHex (b :: bs) = byteHexChars b ++ bytesToHex bs := by
  simp [bytesToHex]

lemma colon_not_mem_bytesToHex (bs : List Nat) : ':' ∉ bytesToHex bs := by
  induction bs with
  | nil => simp [bytesToHex_nil]
  | cons b rest ih =>
    rw [bytesToHex_cons]
    intro hmem
    rcases List.mem_append.mp hmem with h | h
    · exact colon_not_mem_byteHexChars b h
    · exact ih h

lemma bufferFromHex_cons (c1 c2 : Char) (rest : List Char) :
    bufferFromHex (c1 :: c2 :: rest) =
      match hexDigitVal c1, hexDigitVal c2 with
      | some h, some l => (16 * h + l) :: bufferFromHex rest
      | _, _ => [] := rfl

lemma bufferFromHex_bytesToHex (bs : List Nat) (h : ∀ b ∈ bs, b < 256) :
    bufferFromHex (bytesToHex bs) = bs := by
  induction bs with
  | nil => rfl
  | cons b rest ih =>
    have hb : b < 256 := h b (by simp)
    have hrest : ∀ x ∈ rest, x < 256 := fun x hx => h x (by simp [hx])
    have h1 : b / 16 % 16 < 16 := Nat.mod_lt _ (by norm_num)
    have h2 : b % 16 < 16 := Nat.mod_lt _ (by norm_num)
    have hstep : bytesToHex (b :: rest) =
        hexDigitChar (b / 16 % 16) :: hexDigitChar (b % 16) :: bytesToHex rest := by
      rw [bytesToHex_cons]; rfl
    rw [hstep, bufferFromHex_cons,
        hexDigitVal_hexDigitChar _ h1, hexDigitVal_hexDigitChar _ h2, ih hrest]
    have hb' : 16 * (b / 16 % 16) + b % 16 = b := by omega
    simp [hb']

lemma bytesToHex_inj {bs1 bs2 : List Nat}
    (h1 : ∀ b ∈ bs1, b < 256) (h2 : ∀ b ∈ bs2, b < 256)
    (he : bytesToHex bs1 = bytesToHex bs2) : bs1 = bs2 := by
  have e1 := bufferFromHex_bytesToHex bs1 h1
  rw [he, bufferFromHex_bytesToHex bs2 h2] at e1
  exact e1.symm

lemma splitOnChar_no_sep (l : List Char) (h : ':' ∉ l) :
    splitOnChar ':' l = [l] := by
  induction l with
  | nil => rfl
  | cons c rest ih =>
    have hc : ¬(c = ':') := by rintro rfl; exact h (by simp)
    have hrest : ':' ∉ rest := fun hm => h (by simp [hm])
    simp [splitOnChar, hc, ih hrest]

lemma splitOnChar_append (a t : List Char) (h : ':' ∉ a) :
    splitOnChar ':' (a ++ ':' :: t) = a :: splitOnChar ':' t := by
  induction a with
  | nil => simp [splitOnChar]
  | cons c rest ih =>
    have hc : ¬(c = ':') := by rintro rfl; exact h (by simp)
    have hrest : ':' ∉ rest := fun hm => h (by simp [hm])
    simp [splitOnChar, hc, ih hrest]

lemma splitOnChar_encryptPHI (data key iv : List Nat) :
    splitOnChar ':' (encryptPHI data key iv) =
      [bytesToHex iv,
       bytesToHex (gcmAuthTag key iv (gcmXor key iv data)),
       bytesToHex (gcmXor key iv data)] := by
  unfold encryptPHI
  rw [splitOnChar_append _ _ (colon_not_mem_bytesToHex iv),
      splitOnChar_append _ _ (colon_not_mem_bytesToHex _),
      splitOnChar_no_sep _ (colon_not_mem_bytesToHex _)]

lemma zipWith_xor_cancel (as : List Nat) :
    ∀ ks : List Nat, as.length ≤ ks.length →
      List.zipWith (fun a b => a ^^^ b) (List.zipWith (fun a b => a ^^^ b) as ks) ks = as := by
  induction as with
  | nil => intro ks _; simp
  | cons a rest ih =>
    intro ks hk
    cases ks with
    | nil => simp at hk
    | cons k ks' =>
      simp only [List.zipWith_cons_cons]
      rw [ih ks' (by simpa using hk)]
      congr 1
      simp [Nat.xor_cancel_right]

lemma gcmKeystream_length (key iv : List Nat) (n : Nat) :
    (gcmKeystream key iv n).length = n := by simp [gcmKeystream]

lemma gcmXor_length (key iv data : List Nat) :
    (gcmXor key iv data).length = data.length := by
  simp [gcmXor, gcmKeystream_length]

lemma gcmXor_gcmXor (key iv data : List Nat) :
    gcmXor key iv (gcmXor key iv data) = data := by
  have hlen := gcmXor_length key iv data
  unfold gcmXor at hlen ⊢
  rw [hlen]
  exact zipWith_xor_cancel data _ (by rw [gcmKeystream_length])

lemma ksByte_lt (key iv : List Nat) (i : Nat) : ksByte key iv i < 256 :=
  Nat.mod_lt _ (by norm_num)

lemma zipWith_xor_lt (as : List Nat) :
    ∀ ks : List Nat, (∀ a ∈ as, a < 256) → (∀ k ∈ ks, k < 256) →
      ∀ c ∈ List.zipWith (fun a b => a ^^^ b) as ks, c < 256 := by
  induction as with
  | nil => simp
  | cons a rest ih =>
    intro ks ha hk
    cases ks with
    | nil => simp
    | cons k ks' =>
      intro c hc
      simp only [List.zipWith_cons_cons, List.mem_cons] at hc
      rcases hc with rfl | hc
      · have h256 : (256 : Nat) = 2 ^ 8 := by norm_num
        rw [h256]
        exact Nat.xor_lt_two_pow (h256 ▸ ha a (by simp)) (h256 ▸ hk k (by simp))
      · exact ih ks' (fun x hx => ha x (by simp [hx])) (fun x hx => hk x (by simp [hx])) c hc

lemma gcmKeystream_lt (key iv : List Nat) (n : Nat) :
    ∀ k ∈ gcmKeystream key iv n, k < 256 := by
  intro k hk
  simp only [gcmKeystream, List.mem_map] at hk
  obtain ⟨i, _, rfl⟩ := hk
  exact ksByte_lt key iv i

lemma gcmXor_lt (key iv data : List Nat) (h : ∀ b ∈ data, b < 256) :
    ∀ c ∈ gcmXor key iv data, c < 256 :=
  zipWith_xor_lt data _ h (gcmKeystream_lt key iv data.length)

lemma gcmAuthTag_lt (key iv ct : List Nat)
    (hk : ∀ b ∈ key, b < 256) (hi : ∀ b ∈ iv, b < 256) (hc : ∀ b ∈ ct, b < 256) :
    ∀ b ∈ gcmAuthTag key iv ct, b < 256 := by
  intro b hb
  unfold gcmAuthTag at hb
  rcases List.mem_append.mp hb with h | h
  · rcases List.mem_append.mp h with h | h
    · exact hk b h
    · exact hi b h
  · exact hc b h

lemma decryptPHI_encryptPHI (data key iv : List Nat)
    (hdata : ∀ b ∈ data, b < 256) (hkey : ∀ b ∈ key, b < 256)
    (hiv : ∀ b ∈ iv, b < 256) :
    decryptPHI (encryptPHI data key iv) key = some data := by
  have hct := gcmXor_lt key iv data hdata
  have htag := gcmAuthTag_lt key iv _ hkey hiv hct
  unfold decryptPHI
  rw [splitOnChar_encryptPHI]
  simp [bufferFromHex_bytesToHex iv hiv, bufferFromHex_bytesToHex _ htag,
    bufferFromHex_bytesToHex _ hct, gcmXor_gcmXor]

/-- Claim C6: for every plaintext, key and IV (as byte sequences),
`decryptPHI` of `encryptPHI` returns the original plaintext, and two
invocations of `encryptPHI` on the same plaintext with distinct sampled IVs
produce different ciphertext strings. -/
theorem encryptPHI_roundtrip_and_iv_distinct
    (data key iv1 iv2 : List Nat)
    (hdata : ∀ b ∈ data, b < 256) (hkey : ∀ b ∈ key, b < 256)
    (hiv1 : ∀ b ∈ iv1, b < 256) (hiv2 : ∀ b ∈ iv2, b < 256)
    (hne : iv1 ≠ iv2) :
    decryptPHI (encryptPHI data key iv1) key = some data ∧
    encryptPHI data key iv1 ≠ encryptPHI data key iv2 := by
  refine ⟨decryptPHI_encryptPHI data key iv1 hdata hkey hiv1, ?_⟩
  intro he
  have hs := congrArg (splitOnChar ':') he
  rw [splitOnChar_encryptPHI, splitOnChar_encryptPHI] at hs
  have hhead : bytesToHex iv1 = bytesToHex iv2 := by
    injection hs with h1 _
  exact hne (bytesToHex_inj hiv1 hiv2 hhead)

/-- Witness for claim C6: the round trip and the IV-distinctness at a
concrete plaintext, key and pair of IVs. -/
theorem encryptPHI_roundtrip_witness :
    decryptPHI (encryptPHI [1, 2, 3] [9, 8] [4]) [9, 8] = some [1, 2, 3] ∧
    encryptPHI [1, 2, 3] [9, 8] [4] ≠ encryptPHI [1, 2, 3] [9, 8] [5] :=
  encryptPHI_roundtrip_and_iv_distinct [1, 2, 3] [9, 8] [4] [5]
    (by decide) (by decide) (by decide) (by decide) (by decide)

/-- Claim C7 (amended): `decryptPHI` fails closed on every modification of
the decoded ciphertext bytes, every modification of the decoded
authentication tag bytes, and on a packed value missing the ciphertext
segment, never returning partially-decrypted data; however (see the
counterexample) tampering that leaves the decoded bytes intact is accepted:
surplus trailing delimiter-separated segments are ignored, and invalid or
incomplete trailing hex in a segment is truncated away by node hex
decoding. -/
theorem decryptPHI_rejects_tampering
    (data key iv : List Nat)
    (hdata : ∀ b ∈ data, b < 256) (hkey : ∀ b ∈ key, b < 256)
    (hiv : ∀ b ∈ iv, b < 256) :
    (∀ ct2, (∀ b ∈ ct2, b < 256) → ct2 ≠ gcmXor key iv data →
      decryptPHI (bytesToHex iv ++
        (':' :: (bytesToHex (gcmAuthTag key iv (gcmXor key iv data)) ++
          (':' :: bytesToHex ct2)))) key = none) ∧
    (∀ tag2, (∀ b ∈ tag2, b < 256) → tag2 ≠ gcmAuthTag key iv (gcmXor key iv data) →
      decryptPHI (bytesToHex iv ++
        (':' :: (bytesToHex tag2 ++
          (':' :: bytesToHex (gcmXor key iv data))))) key = none) ∧
    decryptPHI (bytesToHex iv ++
      (':' :: bytesToHex (gcmAuthTag key iv (gcmXor key iv data)))) key = none := by
  have hct := gcmXor_lt key iv data hdata
  have htag := gcmAuthTag_lt key iv _ hkey hiv hct
  refine ⟨?_, ?_, ?_⟩
  · intro ct2 hct2 hne
    unfold decryptPHI
    rw [splitOnChar_append _ _ (colon_not_mem_bytesToHex iv),
        splitOnChar_append _ _ (colon_not_mem_bytesToHex _),
        splitOnChar_no_sep _ (colon_not_mem_bytesToHex _)]
    have hneq : ¬(gcmAuthTag key iv ct2 = gcmAuthTag key iv (gcmXor key iv data)) := by
      unfold gcmAuthTag
      intro he
      exact hne (List.append_cancel_left he)
    simp [bufferFromHex_bytesToHex iv hiv, bufferFromHex_bytesToHex _ htag,
      bufferFromHex_bytesToHex _ hct2, hneq]
  · intro tag2 htag2 hne
    unfold decryptPHI
    rw [splitOnChar_append _ _ (colon_not_mem_bytesToHex iv),
        splitOnChar_append _ _ (colon_not_mem_bytesToHex _),
        splitOnChar_no_sep _ (colon_not_mem_bytesToHex _)]
    simp [bufferFromHex_bytesToHex iv hiv, bufferFromHex_bytesToHex _ htag2,
      bufferFromHex_bytesToHex _ hct, Ne.symm hne]
  · unfold decryptPHI
    rw [splitOnChar_append _ _ (colon_not_mem_bytesToHex iv),
        splitOnChar_no_sep _ (colon_not_mem_bytesToHex _)]

/-- Witness for claim C7: the three rejection cases at concrete inputs. -/
theorem decryptPHI_rejects_tampering_witness :
    decryptPHI (bytesToHex [4] ++
      (':' :: (bytesToHex (gcmAuthTag [9] [4] (gcmXor [9] [4] [1, 2])) ++
        (':' :: bytesToHex [0, 0])))) [9] = none ∧
    decryptPHI (bytesToHex [4] ++
      (':' :: (bytesToHex [7] ++
        (':' :: bytesToHex (gcmXor [9] [4] [1, 2]))))) [9] = none ∧
    decryptPHI (bytesToHex [4] ++
      (':' :: bytesToHex (gcmAuthTag [9] [4] (gcmXor [9] [4] [1, 2])))) [9] = none := by
  obtain ⟨h1, h2, h3⟩ := decryptPHI_rejects_tampering [1, 2] [9] [4]
    (by decide) (by decide) (by decide)
  exact ⟨h1 [0, 0] (by decide) (by decide), h2 [7] (by decide) (by decide), h3⟩

/-- Claim C7, counterexample to the claim as stated: two tampered or
malformed inputs on which `decryptPHI` still SUCCEEDS.  Appending an extra
delimiter-separated segment to a genuine ciphertext yields four segments
instead of three, but the JavaScript destructuring of `split` ignores the
surplus; and appending invalid hex characters to the tag segment yields a
string whose tag segment is not valid hex, but node hex decoding truncates
the invalid tail and recovers the genuine tag, so decryption succeeds. -/
theorem decryptPHI_extra_segment_accepted :
    decryptPHI (encryptPHI [5, 6] [1, 2] [3] ++ [':', '0', '0']) [1, 2] = some [5, 6] ∧
    encryptPHI [5, 6] [1, 2] [3] ++ [':', '0', '0'] ≠ encryptPHI [5, 6] [1, 2] [3] ∧
    decryptPHI (bytesToHex [3] ++
      (':' :: ((bytesToHex (gcmAuthTag [1, 2] [3] (gcmXor [1, 2] [3] [5, 6])) ++
        ['z', 'z']) ++
        (':' :: bytesToHex (gcmXor [1, 2] [3] [5, 6]))))) [1, 2] = some [5, 6] ∧
    bytesToHex (gcmAuthTag [1, 2] [3] (gcmXor [1, 2] [3] [5, 6])) ++ ['z', 'z'] ≠
      bytesToHex (gcmAuthTag [1, 2] [3] (gcmXor [1, 2] [3] [5, 6])) := by
  decide

/-- Claim C9, counterexample to the claim as stated: the mask placed
between the revealed ends has length `max (length - 2*visibleChars) 4`, so
two inputs of different lengths produce masks of different lengths (4 and 12
asterisks here) — the mask length is NOT independent of the input length. -/
theorem maskSensitiveData_mask_length_varies :
    maskSensitiveData ("abcdefghijkl".data) 4 =
      ("abcd".data ++ List.replicate 4 '*' ++ "ijkl".data) ∧
    maskSensitiveData ("abcdefghijklmnopqrst".data) 4 =
      ("abcd".data ++ List.replicate 12 '*' ++ "qrst".data) ∧
    (4 : Nat) ≠ 12 := by
  decide

/-- Claim C9 (amended): `maskSensitiveData` is pure and reveals only the
first and last `visibleChars` characters: inputs no longer than
`2*visibleChars` map to the constant full mask, and for longer inputs the
output is the revealed prefix and suffix around a middle consisting solely of
asterisks, whose length is `max (length - 2*visibleChars) 4` — a function of
the input length rather than a fixed constant. -/
theorem maskSensitiveData_reveals_only_ends (data : List Char) (n : Nat) :
    (data.length ≤ n * 2 → maskSensitiveData data n = fullMask.data) ∧
    (n * 2 < data.length →
      (maskSensitiveData data n).take n = data.take n ∧
      (maskSensitiveData data n).drop ((maskSensitiveData data n).length - n) =
        data.drop (data.length - n) ∧
      (∀ c ∈ ((maskSensitiveData data n).drop n).take
          ((maskSensitiveData data n).length - n * 2), c = '*') ∧
      (maskSensitiveData data n).length = n * 2 + max (data.length - n * 2) 4) := by
  constructor
  · intro hle
    simp [maskSensitiveData, hle]
  · intro hlt
    have hnle : ¬(data.length ≤ n * 2) := by omega
    have hA : (data.take n).length = n := by rw [List.length_take]; omega
    have hC : (data.drop (data.length - n)).length = n := by rw [List.length_drop]; omega
    have hM : (List.replicate (max (data.length - n * 2) 4) '*').length =
        max (data.length - n * 2) 4 := List.length_replicate _ _
    have hout : maskSensitiveData data n =
        (data.take n ++ List.replicate (max (data.length - n * 2) 4) '*') ++
          data.drop (data.length - n) := by
      simp [maskSensitiveData, hnle]
    have hlen : (maskSensitiveData data n).length =
        n + max (data.length - n * 2) 4 + n := by
      rw [hout]
      simp [List.length_append, hA, hM, hC]
      omega
    refine ⟨?_, ?_, ?_, ?_⟩
    · rw [hout, List.append_assoc, List.take_left' hA]
    · have h1 : (maskSensitiveData data n).length - n =
          (data.take n ++ List.replicate (max (data.length - n * 2) 4) '*').length := by
        rw [hlen, List.length_append, hA, hM]; omega
      rw [h1, hout, List.drop_left]
    · intro c hc
      have h2 : (maskSensitiveData data n).length - n * 2 =
          max (data.length - n * 2) 4 := by rw [hlen]; omega
      rw [h2, hout, List.append_assoc, List.drop_left' hA, List.take_left' hM] at hc
      exact List.eq_of_mem_replicate hc
    · rw [hlen]; omega

/-- Witness for claim C9 at a twelve-character input and at a short
input. -/
theorem maskSensitiveData_reveals_only_ends_witness :
    ((4 * 2 : Nat) < ("abcdefghijkl".data).length) ∧
    (maskSensitiveData ("abcdefghijkl".data) 4).take 4 = ("abcdefghijkl".data).take 4 ∧
    (maskSensitiveData ("abc".data) 4 = fullMask.data) := by
  have h := maskSensitiveData_reveals_only_ends ("abcdefghijkl".data) 4
  have h2 := maskSensitiveData_reveals_only_ends ("abc".data) 4
  exact ⟨by decide, (h.2 (by decide)).1, h2.1 (by decide)⟩

lemma lookup_objSetAll (fields : List (String × Json)) (k k2 : String) (v : Json) :
    (objSetAll fields k v).lookup k2 =
      if k2 = k then (fields.lookup k2).map (fun _ => v) else fields.lookup k2 := by
  induction fields with
  | nil => simp [objSetAll]
  | cons kv rest ih =>
    obtain ⟨k1, w⟩ := kv
    by_cases h1 : k1 = k
    · subst h1
      have hobj : objSetAll ((k1, w) :: rest) k1 v = (k1, v) :: objSetAll rest k1 v := by
        simp [objSetAll]
      rw [hobj]
      by_cases h2 : k2 = k1
      · subst h2
        simp [List.lookup]
      · have hb : (k2 == k1) = false := beq_eq_false_iff_ne.mpr h2
        simp [List.lookup, hb, ih]
    · have hobj : objSetAll ((k1, w) :: rest) k v = (k1, w) :: objSetAll rest k v := by
        simp [objSetAll, h1]
      rw [hobj]
      by_cases h2 : k2 = k1
      · subst h2
        have h2k : ¬(k2 = k) := h1
        simp [List.lookup, h2k]
      · have hb : (k2 == k1) = false := beq_eq_false_iff_ne.mpr h2
        simp [List.lookup, hb, ih]

lemma sanitizeBodyStep_preserves_redacted (fields : List (String × Json))
    (k name : String)
    (h : fields.lookup k = some (.jstr redactedMarker)) :
    (sanitizeBodyStep fields name).lookup k = some (.jstr redactedMarker) := by
  unfold sanitizeBodyStep
  by_cases ht : jsTruthyOpt (fields.lookup name) = true
  · rw [if_pos ht, lookup_objSetAll]
    by_cases hk : k = name
    · subst hk
      rw [if_pos rfl, h]
      rfl
    · rw [if_neg hk]
      exact h
  · rw [if_neg ht]
    exact h

lemma sanitizeBodyStep_preserves_other (fields : List (String × Json))
    (k name : String) (hne : k ≠ name) :
    (sanitizeBodyStep fields name).lookup k = fields.lookup k := by
  unfold sanitizeBodyStep
  by_cases ht : jsTruthyOpt (fields.lookup name) = true
  · rw [if_pos ht, lookup_objSetAll, if_neg hne]
  · rw [if_neg ht]

lemma foldl_preserves_redacted (names : List String) :
    ∀ (fields : List (String × Json)) (k : String),
      fields.lookup k = some (.jstr redactedMarker) →
      (names.foldl sanitizeBodyStep fields).lookup k = some (.jstr redactedMarker) := by
  induction names with
  | nil => intro fields k h; exact h
  | cons n rest ih =>
    intro fields k h
    exact ih _ k (sanitizeBodyStep_preserves_redacted fields k n h)

lemma foldl_redacts (names : List String) :
    ∀ (fields : List (String × Json)) (k : String) (v : Json),
      k ∈ names → fields.lookup k = some v → jsTruthy v = true →
      (names.foldl sanitizeBodyStep fields).lookup k = some (.jstr redactedMarker) := by
  induction names with
  | nil => intro _ _ _ hk; cases hk
  | cons n rest ih =>
    intro fields k v hk hv ht
    by_cases he : k = n
    · subst he
      have hstep : (sanitizeBodyStep fields k).lookup k = some (.jstr redactedMarker) := by
        unfold sanitizeBodyStep
        have htr : jsTruthyOpt (fields.lookup k) = true := by rw [hv]; exact ht
        rw [if_pos htr, lookup_objSetAll, if_pos rfl, hv]
        rfl
      exact foldl_preserves_redacted rest _ k hstep
    · have hk' : k ∈ rest := by
        rcases List.mem_cons.mp hk with h | h
        · exact absurd h he
        · exact h
      have hlook : (sanitizeBodyStep fields n).lookup k = some v := by
        rw [sanitizeBodyStep_preserves_other fields k n he]
        exact hv
      exact ih _ k v hk' hlook ht

/-- Claim C2 (amended): for every snapshot object, every key of the
eight-name denylist occurring at the TOP level with a truthy value is
replaced by the fixed marker in the persisted snapshot produced by
`sanitizeBody`.  (Nested keys, differently-cased keys and the
`authorization` key are not redacted; see the counterexample.) -/
theorem sanitizeBody_redacts_top_level
    (fields : List (String × Json)) (k : String) (v : Json)
    (hk : k ∈ sensitiveFieldsAudit) (hv : fields.lookup k = some v)
    (ht : jsTruthy v = true) :
    jsonGet (sanitizeBody (.jobj fields)) k = some (.jstr redactedMarker) := by
  show (sensitiveFieldsAudit.foldl sanitizeBodyStep fields).lookup k =
    some (.jstr redactedMarker)
  exact foldl_redacts sensitiveFieldsAudit fields k v hk hv ht

/-- Witness for claim C2: a top-level `password` field is redacted. -/
theorem sanitizeBody_redacts_top_level_witness :
    ("password" ∈ sensitiveFieldsAudit) ∧
    jsonGet (sanitizeBody (.jobj [("password", .jstr ("pw123")), ("name", .jstr ("Jane"))]))
      "password" = some (.jstr redactedMarker) :=
  ⟨by decide,
   sanitizeBody_redacts_top_level [("password", .jstr ("pw123")), ("name", .jstr ("Jane"))]
     "password" (.jstr ("pw123")) (by decide) rfl rfl⟩

/-- Claim C2, counterexample to the claim as stated: a denylisted key one
level deep keeps its original value in the persisted snapshot (`sanitizeBody`
does not recurse), and a differently-cased `Password` key or an
`authorization` key at the top level is not redacted either. -/
theorem sanitizeBody_misses_nested_and_case :
    sanitizeBody (.jobj [("user", .jobj [("password", .jstr ("x"))])]) =
      .jobj [("user", .jobj [("password", .jstr ("x"))])] ∧
    jsonGet (sanitizeBody (.jobj [("user", .jobj [("password", .jstr ("x"))])])) "user" =
      some (.jobj [("password", .jstr ("x"))]) ∧
    jsonGet (.jobj [("password", Json.jstr ("x"))]) "password" = some (.jstr ("x")) ∧
    sanitizeBody (.jobj [("Password", .jstr ("x"))]) = .jobj [("Password", .jstr ("x"))] ∧
    sanitizeBody (.jobj [("authorization", .jstr ("x"))]) =
      .jobj [("authorization", .jstr ("x"))] :=
  ⟨rfl, rfl, rfl, rfl, rfl⟩

lemma sanitize_zero (h : JHeap) (v : JVal) :
    sanitizeSensitiveData 0 h v = (h, v) := rfl

lemma sanitize_falsy (fuel : Nat) (h : JHeap) (v : JVal) (hf : jsFalsy v = true) :
    sanitizeSensitiveData (fuel + 1) h v = (h, v) := by
  simp only [sanitizeSensitiveData, hf, if_true]

lemma sanitize_vstr (fuel : Nat) (h : JHeap) (s : String) :
    sanitizeSensitiveData (fuel + 1) h (.vstr s) = (h, .vstr s) := by
  simp only [sanitizeSensitiveData]
  split <;> rfl

lemma sanitize_vnum (fuel : Nat) (h : JHeap) (n : Int) :
    sanitizeSensitiveData (fuel + 1) h (.vnum n) = (h, .vnum n) := by
  simp only [sanitizeSensitiveData]
  split <;> rfl

lemma sanitize_vbool (fuel : Nat) (h : JHeap) (b : Bool) :
    sanitizeSensitiveData (fuel + 1) h (.vbool b) = (h, .vbool b) := by
  simp only [sanitizeSensitiveData]
  split <;> rfl

lemma sanitize_vnull (fuel : Nat) (h : JHeap) :
    sanitizeSensitiveData (fuel + 1) h .vnull = (h, .vnull) := rfl

lemma sanitize_vundef (fuel : Nat) (h : JHeap) :
    sanitizeSensitiveData (fuel + 1) h .vundef = (h, .vundef) := rfl

lemma sanitize_ref_none (fuel : Nat) (h : JHeap) (a : Nat) (hh : h[a]? = none) :
    sanitizeSensitiveData (fuel + 1) h (.vref a) = (h, .vref a) := by
  simp only [sanitizeSensitiveData, jsFalsy, hh]
  rfl

lemma sanitize_ref_obj (fuel : Nat) (h : JHeap) (a : Nat)
    (fields : List (String × JVal)) (hh : h[a]? = some (.objN fields)) :
    sanitizeSensitiveData (fuel + 1) h (.vref a) =
      (fields.foldl (fun hAcc kv =>
        if isSensitiveMw kv.1 then
          heapSetObjField hAcc h.length kv.1 (.vstr redactedMarker)
        else if isObjTypeof kv.2 then
          let p := sanitizeSensitiveData fuel hAcc kv.2
          heapSetObjField p.1 h.length kv.1 p.2
        else hAcc) (h ++ [JNode.objN fields]),
       .vref h.length) := by
  simp only [sanitizeSensitiveData, jsFalsy, hh]
  rfl

lemma sanitize_ref_arr (fuel : Nat) (h : JHeap) (a : Nat)
    (elems : List JVal) (hh : h[a]? = some (.arrN elems)) :
    sanitizeSensitiveData (fuel + 1) h (.vref a) =
      (elems.enum.foldl (fun hAcc iv =>
        if isObjTypeof iv.2 then
          let p := sanitizeSensitiveData fuel hAcc iv.2
          heapSetArrIdx p.1 h.length iv.1 p.2
        else hAcc) (h ++ [JNode.arrN elems]),
       .vref h.length) := by
  simp only [sanitizeSensitiveData, jsFalsy, hh]
  rfl

lemma heapSetObjField_length (h : JHeap) (a : Nat) (k : String) (v : JVal) :
    (heapSetObjField h a k v).length = h.length := by
  unfold heapSetObjField
  split <;> simp [List.length_set]

lemma heapSetObjField_get_ne (h : JHeap) (a : Nat) (k : String) (v : JVal)
    (i : Nat) (hne : a ≠ i) :
    (heapSetObjField h a k v)[i]? = h[i]? := by
  unfold heapSetObjField
  split <;> simp [List.getElem?_set_ne hne]

lemma heapSetArrIdx_length (h : JHeap) (a i : Nat) (v : JVal) :
    (heapSetArrIdx h a i v).length = h.length := by
  unfold heapSetArrIdx
  split <;> simp [List.length_set]

lemma heapSetArrIdx_get_ne (h : JHeap) (a idx : Nat) (v : JVal)
    (i : Nat) (hne : a ≠ i) :
    (heapSetArrIdx h a idx v)[i]? = h[i]? := by
  unfold heapSetArrIdx
  split <;> simp [List.getElem?_set_ne hne]

lemma foldl_heap_preserves {α : Type} (g : JHeap → α → JHeap) (n : Nat)
    (hg : ∀ hAcc x, n ≤ hAcc.length →
      hAcc.length ≤ (g hAcc x).length ∧ ∀ i, i < n → (g hAcc x)[i]? = hAcc[i]?) :
    ∀ (xs : List α) (hAcc : JHeap), n ≤ hAcc.length →
      hAcc.length ≤ (xs.foldl g hAcc).length ∧
      ∀ i, i < n → (xs.foldl g hAcc)[i]? = hAcc[i]? := by
  intro xs
  induction xs with
  | nil => intro hAcc _; exact ⟨le_refl _, fun i _ => rfl⟩
  | cons x rest ih =>
    intro hAcc hn
    obtain ⟨hlen, hpres⟩ := hg hAcc x hn
    obtain ⟨hlen2, hpres2⟩ := ih (g hAcc x) (le_trans hn hlen)
    exact ⟨le_trans hlen hlen2, fun i hi => (hpres2 i hi).trans (hpres i hi)⟩

lemma sanitizeSensitiveData_frame (fuel : Nat) :
    ∀ (h : JHeap) (v : JVal),
      h.length ≤ (sanitizeSensitiveData fuel h v).1.length ∧
      ∀ i, i < h.length → (sanitizeSensitiveData fuel h v).1[i]? = h[i]? := by
  induction fuel with
  | zero => intro h v; exact ⟨le_refl _, fun i _ => rfl⟩
  | succ fuel ih =>
    intro h v
    by_cases hf : jsFalsy v = true
    · rw [sanitize_falsy fuel h v hf]
      exact ⟨le_refl _, fun i _ => rfl⟩
    · cases v with
      | vnull => rw [sanitize_vnull]; exact ⟨le_refl _, fun i _ => rfl⟩
      | vundef => rw [sanitize_vundef]; exact ⟨le_refl _, fun i _ => rfl⟩
      | vstr s => rw [sanitize_vstr]; exact ⟨le_refl _, fun i _ => rfl⟩
      | vnum m => rw [sanitize_vnum]; exact ⟨le_refl _, fun i _ => rfl⟩
      | vbool b => rw [sanitize_vbool]; exact ⟨le_refl _, fun i _ => rfl⟩
      | vref a =>
        cases hh : h[a]? with
        | none =>
          rw [sanitize_ref_none fuel h a hh]
          exact ⟨le_refl _, fun i _ => rfl⟩
        | some node =>
          cases node with
          | objN fields =>
            rw [sanitize_ref_obj fuel h a fields hh]
            have hstep : ∀ (hAcc : JHeap) (kv : String × JVal), h.length ≤ hAcc.length →
                hAcc.length ≤ ((fun (hAcc : JHeap) (kv : String × JVal) =>
                  if isSensitiveMw kv.1 then
                    heapSetObjField hAcc h.length kv.1 (.vstr redactedMarker)
                  else if isObjTypeof kv.2 then
                    let p := sanitizeSensitiveData fuel hAcc kv.2
                    heapSetObjField p.1 h.length kv.1 p.2
                  else hAcc) hAcc kv).length ∧
                ∀ i, i < h.length →
                  ((fun (hAcc : JHeap) (kv : String × JVal) =>
                    if isSensitiveMw kv.1 then
                      heapSetObjField hAcc h.length kv.1 (.vstr redactedMarker)
                    else if isObjTypeof kv.2 then
                      let p := sanitizeSensitiveData fuel hAcc kv.2
                      heapSetObjField p.1 h.length kv.1 p.2
                    else hAcc) hAcc kv)[i]? = hAcc[i]? := by
              intro hAcc kv hn
              by_cases hs : isSensitiveMw kv.1 = true
              · simp only [hs, if_true]
                refine ⟨le_of_eq (heapSetObjField_length ..).symm, fun i hi => ?_⟩
                exact heapSetObjField_get_ne _ _ _ _ i (by omega)
              · simp only [hs, Bool.false_eq_true, if_false]
                by_cases ho : isObjTypeof kv.2 = true
                · simp only [ho, if_true]
                  obtain ⟨hlen, hpres⟩ := ih hAcc kv.2
                  refine ⟨?_, fun i hi => ?_⟩
                  · rw [heapSetObjField_length]
                    exact hlen
                  · rw [heapSetObjField_get_ne _ _ _ _ i (by omega)]
                    exact hpres i (by omega)
                · simp only [ho, Bool.false_eq_true, if_false]
                  exact ⟨le_refl _, fun i _ => trivial⟩
            have hbase : h.length ≤ (h ++ [JNode.objN fields]).length := by simp
            obtain ⟨hlen, hpres⟩ :=
              foldl_heap_preserves _ h.length hstep fields (h ++ [JNode.objN fields]) hbase
            refine ⟨le_trans hbase hlen, fun i hi => ?_⟩
            show (List.foldl _ (h ++ [JNode.objN fields]) fields)[i]? = h[i]?
            rw [hpres i hi, List.getElem?_append_left hi]
          | arrN elems =>
            rw [sanitize_ref_arr fuel h a elems hh]
            have hstep : ∀ (hAcc : JHeap) (iv : Nat × JVal), h.length ≤ hAcc.length →
                hAcc.length ≤ ((fun (hAcc : JHeap) (iv : Nat × JVal) =>
                  if isObjTypeof iv.2 then
                    let p := sanitizeSensitiveData fuel hAcc iv.2
                    heapSetArrIdx p.1 h.length iv.1 p.2
                  else hAcc) hAcc iv).length ∧
                ∀ i, i < h.length →
                  ((fun (hAcc : JHeap) (iv : Nat × JVal) =>
                    if isObjTypeof iv.2 then
                      let p := sanitizeSensitiveData fuel hAcc iv.2
                      heapSetArrIdx p.1 h.length iv.1 p.2
                    else hAcc) hAcc iv)[i]? = hAcc[i]? := by
              intro hAcc iv hn
              by_cases ho : isObjTypeof iv.2 = true
              · simp only [ho, if_true]
                obtain ⟨hlen, hpres⟩ := ih hAcc iv.2
                refine ⟨?_, fun i hi => ?_⟩
                · rw [heapSetArrIdx_length]
                  exact hlen
                · rw [heapSetArrIdx_get_ne _ _ _ _ i (by omega)]
                  exact hpres i (by omega)
              · simp only [ho, Bool.false_eq_true, if_false]
                exact ⟨le_refl _, fun i _ => trivial⟩
            have hbase : h.length ≤ (h ++ [JNode.arrN elems]).length := by simp
            obtain ⟨hlen, hpres⟩ :=
              foldl_heap_preserves _ h.length hstep elems.enum (h ++ [JNode.arrN elems]) hbase
            refine ⟨le_trans hbase hlen, fun i hi => ?_⟩
            show (List.foldl _ (h ++ [JNode.arrN elems]) elems.enum)[i]? = h[i]?
            rw [hpres i hi, List.getElem?_append_left hi]

lemma sanitizeSensitiveData_fresh_ref (fuel : Nat) (h : JHeap) (a : Nat)
    (nd : JNode) (hh : h[a]? = some nd) :
    (sanitizeSensitiveData (fuel + 1) h (.vref a)).2 = .vref h.length := by
  cases nd with
  | objN fields => rw [sanitize_ref_obj fuel h a fields hh]
  | arrN elems => rw [sanitize_ref_arr fuel h a elems hh]

/-- Claim C10: `sanitizeSensitiveData` never mutates its argument: every
heap node existing before the call is unchanged after it (for every fuel
bound), and for an object or array input the returned value is a freshly
allocated node, not the input reference. -/
theorem sanitizeSensitiveData_no_mutation (fuel : Nat) (h : JHeap) (v : JVal) :
    (∀ i, i < h.length → (sanitizeSensitiveData fuel h v).1[i]? = h[i]?) ∧
    (∀ a nd, v = .vref a → h[a]? = some nd →
      (sanitizeSensitiveData (fuel + 1) h v).2 = .vref h.length) := by
  refine ⟨(sanitizeSensitiveData_frame fuel h v).2, ?_⟩
  rintro a nd rfl hh
  exact sanitizeSensitiveData_fresh_ref fuel h a nd hh

/-- Witness for claim C10: sanitizing an object holding a denylisted key
leaves the original node intact and returns a fresh reference. -/
theorem sanitizeSensitiveData_no_mutation_witness :
    ((sanitizeSensitiveData 1 [JNode.objN [("password", .vstr ("x"))]] (.vref 0)).1[0]? =
      some (JNode.objN [("password", .vstr ("x"))])) ∧
    (sanitizeSensitiveData 1 [JNode.objN [("password", .vstr ("x"))]] (.vref 0)).2 = .vref 1 := by
  constructor
  · have hfr := (sanitizeSensitiveData_no_mutation 1
      [JNode.objN [("password", .vstr ("x"))]] (.vref 0)).1 0 (by decide)
    rw [hfr]
    rfl
  · exact (sanitizeSensitiveData_no_mutation 0
      [JNode.objN [("password", .vstr ("x"))]] (.vref 0)).2 0
      (JNode.objN [("password", .vstr ("x"))]) rfl rfl

/-- Claim C1, counterexample to the claim as stated: in both
`getMedicalRecord` and `getAppointment`, the full-row fetch (including
protected columns) happens BEFORE the authorization decision, so the claimed
temporal property (no data read before the decision) is false on a concrete
denied run. -/
theorem fetch_precedes_authorization :
    noFetchBeforeDecision
      (getMedicalRecord [⟨"r1", "u2", true⟩] ⟨"u1", "PATIENT"⟩ "r1" false).2 = false ∧
    noFetchBeforeDecision
      (getAppointment [⟨"a1", "u2"⟩] ⟨"u1", "PATIENT"⟩ "a1" false).2 = false := by
  decide

/-- Claim C4, counterexample to the claim as stated: a non-existent
resource raises a not-found error while an existing but forbidden resource
raises an access-denied error, with different messages — the two runs are
distinguishable, giving a resource-existence oracle. -/
theorem denial_reveals_existence :
    (getMedicalRecord [] ⟨"u1", "PATIENT"⟩ "r1" false).1 = .err msgRecordNotFound ∧
    (getMedicalRecord [⟨"r1", "u2", true⟩] ⟨"u1", "PATIENT"⟩ "r1" false).1 =
      .err msgRecordAccessDenied ∧
    (msgRecordNotFound ≠ msgRecordAccessDenied) ∧
    (getAppointment [] ⟨"u1", "PATIENT"⟩ "a1" false).1 = .err msgApptNotFound ∧
    (getAppointment [⟨"a1", "u2"⟩] ⟨"u1", "PATIENT"⟩ "a1" false).1 =
      .err msgApptAccessDenied ∧
    (msgApptNotFound ≠ msgApptAccessDenied) := by
  decide

/-- Claim C3, counterexample to the claim as stated: the auth-service
handler is exported without any error-handling or audit middleware and never
calls `createAuditLog`, so its `logout` path raising an `UnauthorizedError`
for a missing identity writes ZERO audit entries, not exactly one. -/
theorem unauthorized_path_without_audit :
    (authServiceLogout none true).1 = .err (.unauthorizedE msgAuthRequiredLogout) ∧
    (authServiceLogout none true).2 = [] ∧
    ((authServiceLogout none true).2).length ≠ 1 := by
  decide

/-- Claim C5 (code bug): through the exported patient-service handler, a
Client self-read and self-update both fail with a 400 validation error on
EVERY call, because the composed `validateRequest(patientSchema)` layer
throws on each invocation (`patientSchema` has no validate method); and even
at the `baseHandler` layer below it, the owner passes the outer
`hasPatientAccess` self-check for an update but the inner `updatePatient`
role gate throws a plain Unauthorized error, while a read of an owned row is
admitted by the outer check only when the row id coincides with the actor
id. -/
theorem patient_self_update_denied :
    patientPipeline [⟨"u1", "u1"⟩]
      ⟨some true, ⟨"u1", "PATIENT"⟩, .updatePatientF, some ("u1"), true⟩ =
      (⟨400, "VALIDATION_ERROR"⟩, [⟨.auditMiddleware, 500, true⟩]) ∧
    patientPipeline [⟨"u1", "u1"⟩]
      ⟨some true, ⟨"u1", "PATIENT"⟩, .getPatientF, some ("u1"), false⟩ =
      (⟨400, "VALIDATION_ERROR"⟩, [⟨.auditMiddleware, 500, true⟩]) ∧
    hasPatientAccess ⟨"u1", "PATIENT"⟩ "u1" = true ∧
    baseHandler [⟨"u1", "u1"⟩]
      ⟨some true, ⟨"u1", "PATIENT"⟩, .updatePatientF, some ("u1"), true⟩ =
      .err (.plainE msgUnauthorizedInner) ∧
    updatePatient [⟨"u1", "u1"⟩] "u1" ⟨"u1", "PATIENT"⟩ =
      .errP (.plainE msgUnauthorizedInner) ∧
    baseHandler [⟨"u1", "u1"⟩]
      ⟨some true, ⟨"u1", "PATIENT"⟩, .getPatientF, some ("u1"), false⟩ = .ok ∧
    baseHandler [⟨"rec1", "u1"⟩]
      ⟨some true, ⟨"u1", "PATIENT"⟩, .getPatientF, some ("rec1"), false⟩ =
      .err (.unauthorizedE msgNoAccessPatient) := by
  decide

/-- Claim C8 (code bug): `createAuditLog` swallows a failing audit-store
put and returns normally, but the per-service `logHipaaEvent` audit insert is
not guarded: when it fails inside `getMedicalRecord`, the error propagates
and the whole read fails, although the same call succeeds when the insert
works. -/
theorem audit_failures_swallowed_vs_propagated :
    (createAuditLog true).1 = .ok ∧
    (createAuditLog false).1 = .ok ∧
    (getMedicalRecord [⟨"r1", "u1", true⟩] ⟨"u1", "PATIENT"⟩ "r1" true).1 =
      .err msgAuditInsertFailed ∧
    (getMedicalRecord [⟨"r1", "u1", true⟩] ⟨"u1", "PATIENT"⟩ "r1" false).1 = .ok :=
  ⟨rfl, rfl, by decide, by decide⟩

lemma getMedicalRecord_none (db : List MRRow) (idn : CogIdent) (rid : String)
    (f : Bool) (hfind : db.find? (fun r => r.id = rid) = none) :
    getMedicalRecord db idn rid f =
      (.err msgRecordNotFound, [.fetchFullRow tblMedicalRecords rid]) := by
  unfold getMedicalRecord
  rw [hfind]

lemma getMedicalRecord_denied (db : List MRRow) (idn : CogIdent) (rid : String)
    (f : Bool) (r : MRRow) (hfind : db.find? (fun x => x.id = rid) = some r)
    (hc : (idn.role = "PATIENT" && !(r.patientUserId = idn.sub)) = true) :
    getMedicalRecord db idn rid f =
      (.err msgRecordAccessDenied,
       [.fetchFullRow tblMedicalRecords rid, .authCheck false]) := by
  unfold getMedicalRecord
  rw [hfind]
  simp [hc]

lemma getMedicalRecord_allowed (db : List MRRow) (idn : CogIdent) (rid : String)
    (f : Bool) (r : MRRow) (hfind : db.find? (fun x => x.id = rid) = some r)
    (hc : (idn.role = "PATIENT" && !(r.patientUserId = idn.sub)) = false) :
    getMedicalRecord db idn rid f =
      (if f then .err msgAuditInsertFailed else .ok,
       [AccessEv.fetchFullRow tblMedicalRecords rid, .authCheck true] ++
       (if r.hasEncryptedContent then [AccessEv.decryptContent] else []) ++
       [.insertRow tblAccessLogs true, .insertRow tblAuditLogs (!f)]) := by
  unfold getMedicalRecord
  rw [hfind]
  cases f <;> cases henc : r.hasEncryptedContent <;> simp [hc, henc]

lemma getAppointment_none (adb : List ApptRow) (idn : CogIdent) (rid : String)
    (f : Bool) (hfind : adb.find? (fun r => r.id = rid) = none) :
    getAppointment adb idn rid f =
      (.err msgApptNotFound, [.fetchFullRow tblAppointments rid]) := by
  unfold getAppointment
  rw [hfind]

lemma getAppointment_denied (adb : List ApptRow) (idn : CogIdent) (rid : String)
    (f : Bool) (r : ApptRow) (hfind : adb.find? (fun x => x.id = rid) = some r)
    (hc : (idn.role = "PATIENT" && !(r.patientUserId = idn.sub)) = true) :
    getAppointment adb idn rid f =
      (.err msgApptAccessDenied,
       [.fetchFullRow tblAppointments rid, .authCheck false]) := by
  unfold getAppointment
  rw [hfind]
  simp [hc]

lemma getAppointment_allowed (adb : List ApptRow) (idn : CogIdent) (rid : String)
    (f : Bool) (r : ApptRow) (hfind : adb.find? (fun x => x.id = rid) = some r)
    (hc : (idn.role = "PATIENT" && !(r.patientUserId = idn.sub)) = false) :
    getAppointment adb idn rid f =
      (if f then .err msgAuditInsertFailed else .ok,
       [AccessEv.fetchFullRow tblAppointments rid, .authCheck true,
        .insertRow tblAuditLogs (!f)]) := by
  unfold getAppointment
  rw [hfind]
  cases f <;> simp [hc]

lemma getMedicalRecord_trace_shape (db : List MRRow) (idn : CogIdent)
    (rid : String) (f : Bool) :
    (getMedicalRecord db idn rid f).2.head? =
      some (.fetchFullRow tblMedicalRecords rid) ∧
    decryptsAfterAllow (getMedicalRecord db idn rid f).2 = true ∧
    ((getMedicalRecord db idn rid f).1 = .err msgRecordAccessDenied →
      (getMedicalRecord db idn rid f).2 =
        [.fetchFullRow tblMedicalRecords rid, .authCheck false]) := by
  rcases hfind : db.find? (fun x => x.id = rid) with _ | r
  · rw [getMedicalRecord_none db idn rid f hfind]
    exact ⟨rfl, rfl, fun h => by simp [msgRecordNotFound, msgRecordAccessDenied] at h⟩
  · by_cases hc : (idn.role = "PATIENT" && !(r.patientUserId = idn.sub)) = true
    · rw [getMedicalRecord_denied db idn rid f r hfind hc]
      exact ⟨rfl, rfl, fun _ => rfl⟩
    · rw [getMedicalRecord_allowed db idn rid f r hfind (Bool.eq_false_iff.mpr hc)]
      cases f <;>
        exact ⟨rfl, rfl, fun h => by
          simp [msgAuditInsertFailed, msgRecordAccessDenied] at h⟩

lemma getAppointment_trace_shape (adb : List ApptRow) (idn : CogIdent)
    (rid : String) (f : Bool) :
    (getAppointment adb idn rid f).2.head? =
      some (.fetchFullRow tblAppointments rid) ∧
    ((getAppointment adb idn rid f).1 = .err msgApptAccessDenied →
      (getAppointment adb idn rid f).2 =
        [.fetchFullRow tblAppointments rid, .authCheck false]) := by
  rcases hfind : adb.find? (fun x => x.id = rid) with _ | r
  · rw [getAppointment_none adb idn rid f hfind]
    exact ⟨rfl, fun h => by simp [msgApptNotFound, msgApptAccessDenied] at h⟩
  · by_cases hc : (idn.role = "PATIENT" && !(r.patientUserId = idn.sub)) = true
    · rw [getAppointment_denied adb idn rid f r hfind hc]
      exact ⟨rfl, fun _ => rfl⟩
    · rw [getAppointment_allowed adb idn rid f r hfind (Bool.eq_false_iff.mpr hc)]
      cases f <;>
        exact ⟨rfl, fun h => by
          simp [msgAuditInsertFailed, msgApptAccessDenied] at h⟩

/-- Claim C1 (amended): in every run of `getMedicalRecord` and
`getAppointment`, the first trace event is the full-row fetch; decryption of
protected content happens only after a successful authorization decision; and
a denied run performs no decryption and no audit insert — but the fetch
itself (including the encrypted content column) precedes the decision, and
the ownership check reads the owner id from the already-fetched row. -/
theorem authorization_after_fetch_before_decrypt
    (db : List MRRow) (adb : List ApptRow) (idn : CogIdent) (rid : String) (f : Bool) :
    ((getMedicalRecord db idn rid f).2.head? =
       some (.fetchFullRow tblMedicalRecords rid) ∧
     decryptsAfterAllow (getMedicalRecord db idn rid f).2 = true ∧
     ((getMedicalRecord db idn rid f).1 = .err msgRecordAccessDenied →
       (getMedicalRecord db idn rid f).2 =
         [.fetchFullRow tblMedicalRecords rid, .authCheck false])) ∧
    ((getAppointment adb idn rid f).2.head? =
       some (.fetchFullRow tblAppointments rid) ∧
     ((getAppointment adb idn rid f).1 = .err msgApptAccessDenied →
       (getAppointment adb idn rid f).2 =
         [.fetchFullRow tblAppointments rid, .authCheck false])) :=
  ⟨getMedicalRecord_trace_shape db idn rid f,
   getAppointment_trace_shape adb idn rid f⟩

/-- Witness for claim C1: the denied-run trace at a concrete database and
actor. -/
theorem authorization_after_fetch_before_decrypt_witness :
    ((getMedicalRecord [⟨"r1", "u2", true⟩] ⟨"u1", "PATIENT"⟩ "r1" false).1 =
       .err msgRecordAccessDenied) ∧
    (getMedicalRecord [⟨"r1", "u2", true⟩] ⟨"u1", "PATIENT"⟩ "r1" false).2 =
      [.fetchFullRow tblMedicalRecords ("r1"), .authCheck false] := by
  have h := (authorization_after_fetch_before_decrypt
    [⟨"r1", "u2", true⟩] [] ⟨"u1", "PATIENT"⟩ "r1" false).1.2.2
  exact ⟨by decide, h (by decide)⟩

/-- Claim C4 (amended): each denial uses one fixed generic message that
does not depend on the actor or on which rule failed — but a missing
resource produces a distinct fixed not-found message, raised before any
authorization check, so resource existence remains observable. -/
theorem denial_error_fixed_messages
    (db : List MRRow) (adb : List ApptRow) (idn : CogIdent) (rid : String) (f : Bool) :
    (db.find? (fun r => r.id = rid) = none →
      (getMedicalRecord db idn rid f).1 = .err msgRecordNotFound) ∧
    (∀ r, db.find? (fun x => x.id = rid) = some r →
      idn.role = "PATIENT" → r.patientUserId ≠ idn.sub →
      (getMedicalRecord db idn rid f).1 = .err msgRecordAccessDenied) ∧
    (adb.find? (fun r => r.id = rid) = none →
      (getAppointment adb idn rid f).1 = .err msgApptNotFound) ∧
    (∀ r, adb.find? (fun x => x.id = rid) = some r →
      idn.role = "PATIENT" → r.patientUserId ≠ idn.sub →
      (getAppointment adb idn rid f).1 = .err msgApptAccessDenied) := by
  refine ⟨?_, ?_, ?_, ?_⟩
  · intro hfind
    rw [getMedicalRecord_none db idn rid f hfind]
  · intro r hfind hrole hne
    rw [getMedicalRecord_denied db idn rid f r hfind (by simp [hrole, hne])]
  · intro hfind
    rw [getAppointment_none adb idn rid f hfind]
  · intro r hfind hrole hne
    rw [getAppointment_denied adb idn rid f r hfind (by simp [hrole, hne])]

/-- Witness for claim C4: the two fixed messages at concrete inputs. -/
theorem denial_error_fixed_messages_witness :
    (getMedicalRecord [] ⟨"u1", "PATIENT"⟩ "r1" false).1 =
      .err msgRecordNotFound ∧
    (getMedicalRecord [⟨"r1", "u2", true⟩] ⟨"u1", "PATIENT"⟩ "r1" false).1 =
      .err msgRecordAccessDenied := by
  have h := denial_error_fixed_messages [] [] (⟨"u1", "PATIENT"⟩ : CogIdent) "r1" false
  have h2 := denial_error_fixed_messages [⟨"r1", "u2", true⟩] []
    (⟨"u1", "PATIENT"⟩ : CogIdent) "r1" false
  exact ⟨h.1 (by decide), h2.2.1 ⟨"r1", "u2", true⟩ (by decide) rfl (by decide)⟩

/-- Claim C3 (amended): a missing bearer header (the only authentication
failure raised as an `UnauthorizedError` on the patient-service path)
produces exactly one audit entry, written by the error handler; a failing
token verification raises a plain error and produces NO audit entry; every
authenticated patient-service call fails in `validateRequest` with a 400
validation response whose single entry comes from the audit middleware, so
no business-handler authorization failure is ever audited; and the
auth-service `UnauthorizedError` paths, exported without audit or
error-handling middleware, produce NO audit entry at all. -/
theorem auth_failure_audit_entries (db : List PRow) (c : PSCall)
    (idn : Option CogIdent) (lo : Bool) :
    (c.token = none → (patientPipeline db c).2 = [⟨.errorHandler, 401, true⟩]) ∧
    (c.token = some false → (patientPipeline db c).2 = []) ∧
    (c.token = some true → patientPipeline db c =
      (⟨400, "VALIDATION_ERROR"⟩, [⟨.auditMiddleware, 500, true⟩])) ∧
    (idn = none → authServiceLogout idn lo =
      (.err (.unauthorizedE msgAuthRequiredLogout), [])) ∧
    (authServiceLogout idn lo).2 = [] := by
  refine ⟨?_, ?_, ?_, ?_, ?_⟩
  · intro htok
    unfold patientPipeline withErrorHandler withAuth
    rw [htok]
    rfl
  · intro htok
    unfold patientPipeline withErrorHandler withAuth
    rw [htok]
    rfl
  · intro htok
    unfold patientPipeline withErrorHandler withAuth
    rw [htok]
    rfl
  · intro hidn
    rw [hidn]
    rfl
  · cases idn with
    | none => rfl
    | some x => cases lo <;> rfl

/-- Witness for claim C3: the one-entry header path, the zero-entry
invalid-token path, the authenticated 400 path, and the zero-entry
auth-service paths, each at a concrete call. -/
theorem auth_failure_audit_entries_witness :
    (patientPipeline []
      ⟨none, ⟨"u1", "PATIENT"⟩, .getPatientF, some ("p1"), false⟩).2 =
      [⟨.errorHandler, 401, true⟩] ∧
    (patientPipeline []
      ⟨some false, ⟨"u1", "PATIENT"⟩, .getPatientF, some ("p1"), false⟩).2 = [] ∧
    patientPipeline [⟨"p2", "u2"⟩]
      ⟨some true, ⟨"u1", "PATIENT"⟩, .getPatientF, some ("p2"), false⟩ =
      (⟨400, "VALIDATION_ERROR"⟩, [⟨.auditMiddleware, 500, true⟩]) ∧
    authServiceLogout none true =
      (.err (.unauthorizedE msgAuthRequiredLogout), []) ∧
    (authServiceLogout (some ⟨"u1", "PATIENT"⟩) false).2 = [] := by
  have h1 := (auth_failure_audit_entries []
    ⟨none, ⟨"u1", "PATIENT"⟩, .getPatientF, some ("p1"), false⟩ none true).1 rfl
  have h2 := (auth_failure_audit_entries []
    ⟨some false, ⟨"u1", "PATIENT"⟩, .getPatientF, some ("p1"), false⟩
    none true).2.1 rfl
  have h3 := (auth_failure_audit_entries [⟨"p2", "u2"⟩]
    ⟨some true, ⟨"u1", "PATIENT"⟩, .getPatientF, some ("p2"), false⟩
    none true).2.2.1 rfl
  have h4 := (auth_failure_audit_entries []
    ⟨none, ⟨"u1", "PATIENT"⟩, .getPatientF, some ("p1"), false⟩
    none true).2.2.2.1 rfl
  have h5 := (auth_failure_audit_entries []
    ⟨none, ⟨"u1", "PATIENT"⟩, .getPatientF, some ("p1"), false⟩
    (some ⟨"u1", "PATIENT"⟩) false).2.2.2.2
  exact ⟨h1, h2, h3, h4, h5⟩

end Hipaa
